import Mathlib

/-!
Verification of the sketch-learner incremental classification pipeline
(src/components/sketch-learner.tsx) against its specification.

The TypeScript component is shallowly embedded: React state (labels,
currentLabel, examples, model, prediction, status) and the dataset ref
(xs, ys) become an explicit `AppState`; IndexedDB plus localStorage become
an explicit `Store`; TensorFlow tensors become `Tensor` (a shape together
with flat row-major rational data); the outcomes of the external library
calls that the code wraps in try/catch (tf.concat, model.fit, model.save,
tf.loadLayersModel) are passed as explicit `Option String` error
parameters, `none` meaning the call succeeded.
-/

/-- A tensor as tf.js sees it: a dynamic shape and flat row-major data.
Pixel and probability values are modelled as rationals. -/
structure Tensor where
  shape : List Nat
  data : List ℚ
deriving DecidableEq

/-- The canvas snapshot handed to tf.browser.fromPixels: dimensions and a
pixel buffer.  fromPixels(canvas, 1) keeps a single channel per pixel, so
one natural number (0..255) per coordinate suffices. -/
structure Canvas where
  height : Nat
  width : Nat
  pixel : Nat → Nat → Nat

/-- One layer of the sequential network, mirroring the tf.layers calls in
buildModel. -/
inductive LayerSpec where
  | conv2d (inputShape : Option (List Nat)) (filters kernelSize : Nat)
      (activation : String)
  | maxPool2d (poolSize : Nat)
  | flatten
  | dense (units : Nat) (activation : String)
  | dropout (rate : ℚ)
deriving DecidableEq

/-- The compiled architecture produced by buildModel: the layer stack plus
the compile configuration (loss, optimizer, learning rate, metrics). -/
structure ModelArch where
  layers : List LayerSpec
  loss : String
  optimizer : String
  learningRate : ℚ
  metrics : List String
deriving DecidableEq

/-- The live model instance held in React state.  Its architecture fixes
its output width (the units of the final dense layer). -/
structure ModelInst where
  arch : ModelArch
deriving DecidableEq

/-- The prediction value set by predict: labels[maxIdx] (which is
undefined, i.e. none, when maxIdx is out of range) and the probability
array. -/
structure PredictionVal where
  label : Option String
  probs : List ℚ
deriving DecidableEq

/-- The component state: React state hooks plus datasetRef. -/
structure AppState where
  labels : List String
  currentLabel : String
  examples : String → Nat
  xs : List Tensor
  ys : List Tensor
  model : Option ModelInst
  prediction : Option PredictionVal
  status : String

/-- The persistence backends: IndexedDB key sketch-learner-model and
localStorage key sketch-learner-labels.  The labels slot holds the parsed
JSON value (none models both an absent key and the "null" default). -/
structure Store where
  modelSlot : Option ModelInst
  labelsSlot : Option (List String)
deriving DecidableEq

/-- imageSize state hook (fixed at 28). -/
def imageSize : Nat := 28

/-- buildModel(numClasses): the sequential architecture and compile
options, exactly as the nine tf calls construct them. -/
def buildModel (numClasses : Nat) : ModelArch :=
  { layers :=
      [ .conv2d (some [imageSize, imageSize, 1]) 16 3 "relu"
      , .maxPool2d 2
      , .conv2d none 32 3 "relu"
      , .maxPool2d 2
      , .flatten
      , .dense 64 "relu"
      , .dropout (1/4)
      , .dense numClasses "softmax" ]
  , loss := "categoricalCrossentropy"
  , optimizer := "adam"
  , learningRate := 1/1000
  , metrics := ["accuracy"] }

/-- The output width of a model: the units of its final dense layer
(0 if the layer stack is empty, which never arises here). -/
def ModelArch.outputWidth (a : ModelArch) : Nat :=
  match a.layers.getLast? with
  | some (.dense u _) => u
  | _ => 0

/-- Result of a train() call, as observed through the status line. -/
inductive TrainResult where
  | insufficientData
  | trained
  | trainingFailed (cause : String)
deriving DecidableEq

/-- train(): the training controller.  concatErr and fitErr are the
outcomes of the external tf.concat and m.fit calls (none = success).
The code sets the new model BEFORE awaiting fit, so a fit failure leaves
the freshly built model live, not the previous one. -/
def train (s : AppState) (concatErr fitErr : Option String) :
    AppState × TrainResult :=
  if s.xs.length < s.labels.length then
    ({ s with status := "Need at least 1 example per class (" ++
        toString s.labels.length ++ " total)" }, .insufficientData)
  else
    match concatErr with
    | some e =>
        ({ s with status := "Training failed: " ++ e }, .trainingFailed e)
    | none =>
        let m : ModelInst := ⟨buildModel s.labels.length⟩
        match fitErr with
        | some e =>
            ({ s with model := some m, status := "Training failed: " ++ e },
              .trainingFailed e)
        | none =>
            ({ s with model := some m, status := "Training complete!" },
              .trained)

/-- Claim C9: buildModel(numClasses) returns the compiled network
conv(16,3x3,relu) - maxpool(2) - conv(32,3x3,relu) - maxpool(2) - flatten
- dense(64,relu) - dropout(0.25) - dense(numClasses,softmax), compiled
with categorical cross-entropy, adam at learning rate 0.001, and accuracy
as the tracked metric. -/
theorem buildModel_architecture (numClasses : Nat) :
    buildModel numClasses =
      { layers :=
          [ .conv2d (some [28, 28, 1]) 16 3 "relu"
          , .maxPool2d 2
          , .conv2d none 32 3 "relu"
          , .maxPool2d 2
          , .flatten
          , .dense 64 "relu"
          , .dropout (1/4)
          , .dense numClasses "softmax" ]
      , loss := "categoricalCrossentropy"
      , optimizer := "adam"
      , learningRate := 1/1000
      , metrics := ["accuracy"] } ∧
    (buildModel numClasses).outputWidth = numClasses := by
  constructor
  · rfl
  · simp [buildModel, ModelArch.outputWidth, List.getLast?]

/-- Claim C5: with fewer examples than labels, train returns
InsufficientData and changes nothing but the status line; in particular
the live model is exactly as before. -/
theorem train_insufficientData (s : AppState) (ce fe : Option String)
    (h : s.xs.length < s.labels.length) :
    (train s ce fe).2 = .insufficientData ∧
    (train s ce fe).1.model = s.model ∧
    (train s ce fe).1.labels = s.labels ∧
    (train s ce fe).1.currentLabel = s.currentLabel ∧
    (train s ce fe).1.examples = s.examples ∧
    (train s ce fe).1.xs = s.xs ∧
    (train s ce fe).1.ys = s.ys ∧
    (train s ce fe).1.prediction = s.prediction := by
  simp [train, h]

/-- A dummy 28x28 input tensor (contents irrelevant to control flow). -/
def dummyTensor : Tensor := ⟨[1, 28, 28, 1], []⟩

/-- A concrete reachable pre-training state: fresh session (no live
model), the two initial labels, one example already added per label. -/
def preTrainState : AppState :=
  { labels := ["circle", "square"]
  , currentLabel := "square"
  , examples := fun _ => 0
  , xs := [dummyTensor, dummyTensor]
  , ys := [dummyTensor, dummyTensor]
  , model := none
  , prediction := none
  , status := "Ready" }

/-- Claim C5 witness: train_insufficientData applied at a concrete state
with 2 examples and 3 labels. -/
theorem train_insufficientData_witness :
    (train { preTrainState with labels := ["circle", "square", "star"] }
        none none).2 = .insufficientData ∧
    (train { preTrainState with labels := ["circle", "square", "star"] }
        none none).1.model = none :=
  ⟨(train_insufficientData _ none none (by decide)).1,
   (train_insufficientData _ none none (by decide)).2.1⟩

/-- Claim C1 counterexample: in a run where fitting fails, the model in
place before the run (here: none) is NOT left in place — the freshly
built model is live afterwards.  The state is reachable: fresh session,
two labels, one example drawn for each, then Train with an out-of-memory
failure inside m.fit. -/
theorem train_fitFailure_replaces_model :
    (train preTrainState none (some "Out of memory")).2 =
      .trainingFailed "Out of memory" ∧
    (train preTrainState none (some "Out of memory")).1.model =
      some ⟨buildModel 2⟩ ∧
    preTrainState.model = none ∧
    (train preTrainState none (some "Out of memory")).1.model ≠
      preTrainState.model := by
  refine ⟨rfl, rfl, rfl, ?_⟩
  simp [train, preTrainState, dummyTensor]

/-- Claim C1 (amended): on a concatenation failure the previous live
model is untouched and the failure is reported as TrainingFailed with the
cause; on a fitting failure the failure is likewise reported, but the
live model is the freshly built (untrained) model for the current label
count, which has already replaced the previous one. -/
theorem train_failure_behaviour (s : AppState) (e : String)
    (hlen : ¬ s.xs.length < s.labels.length) :
    ((train s (some e) none).2 = .trainingFailed e ∧
      (train s (some e) none).1.model = s.model) ∧
    ((train s none (some e)).2 = .trainingFailed e ∧
      (train s none (some e)).1.model =
        some ⟨buildModel s.labels.length⟩) := by
  refine ⟨⟨?_, ?_⟩, ⟨?_, ?_⟩⟩ <;> simp [train, hlen]

/-- Claim C1 amended witness: train_failure_behaviour at the concrete
reachable pre-training state. -/
theorem train_failure_behaviour_witness :
    ((train preTrainState (some "oom") none).2 = .trainingFailed "oom" ∧
      (train preTrainState (some "oom") none).1.model =
        preTrainState.model) ∧
    ((train preTrainState none (some "oom")).2 = .trainingFailed "oom" ∧
      (train preTrainState none (some "oom")).1.model =
        some ⟨buildModel 2⟩) :=
  train_failure_behaviour preTrainState "oom" (by decide)

/-- tf.browser.fromPixels(canvas, 1): an [H, W, 1] tensor holding one
channel per pixel, row-major. -/
def fromPixels (cv : Canvas) : Tensor :=
  { shape := [cv.height, cv.width, 1]
  , data := (List.range (cv.height * cv.width)).map
      (fun i => ((cv.pixel (i / cv.width) (i % cv.width) : ℚ))) }

/-- t.div(d): elementwise scalar division (toFloat is the identity in the
rational model). -/
def Tensor.divScalar (t : Tensor) (d : ℚ) : Tensor :=
  { shape := t.shape, data := t.data.map (· / d) }

/-- The two-dimensional linear blend of four corner values with weights
fx (column fraction) and fy (row fraction), written as tf.js computes it:
top = tl + (tr - tl) * fx, bottom = bl + (br - bl) * fx, result =
top + (bottom - top) * fy. -/
def blend2 (tl tr bl br fx fy : ℚ) : ℚ :=
  (tl + (tr - tl) * fx) +
    ((bl + (br - bl) * fx) - (tl + (tr - tl) * fx)) * fy

/-- One output value of tf.image.resizeBilinear (alignCorners = false):
source coordinate y * (h / newH), blend of the four neighbouring input
values with the fractional parts as weights. -/
def bilinearAt (data : List ℚ) (h w c newH newW y x ch : Nat) : ℚ :=
  let inY : ℚ := y * ((h : ℚ) / newH)
  let inX : ℚ := x * ((w : ℚ) / newW)
  let y0 : Nat := (⌊inY⌋).toNat
  let x0 : Nat := (⌊inX⌋).toNat
  let y1 : Nat := min (y0 + 1) (h - 1)
  let x1 : Nat := min (x0 + 1) (w - 1)
  blend2
    (data.getD ((y0 * w + x0) * c + ch) 0)
    (data.getD ((y0 * w + x1) * c + ch) 0)
    (data.getD ((y1 * w + x0) * c + ch) 0)
    (data.getD ((y1 * w + x1) * c + ch) 0)
    (Int.fract inX) (Int.fract inY)

/-- tf.image.resizeBilinear(t, [newH, newW]) on a rank-3 [H, W, C]
tensor. -/
def Tensor.resizeBilinear (t : Tensor) (newH newW : Nat) : Tensor :=
  match t.shape with
  | [h, w, c] =>
      { shape := [newH, newW, c]
      , data := (List.range (newH * newW * c)).map
          (fun i => bilinearAt t.data h w c newH newW
            (i / (newW * c)) ((i / c) % newW) (i % c)) }
  | _ => t

/-- t.expandDims(0): prepend a batch dimension of size 1. -/
def Tensor.expandDims0 (t : Tensor) : Tensor :=
  { shape := 1 :: t.shape, data := t.data }

/-- canvasToTensor(): grab one channel, scale to [0,1], bilinear-resize
to 28x28, add the batch dimension; throws if the canvas is absent. -/
def canvasToTensor (canvas : Option Canvas) : Except String Tensor :=
  match canvas with
  | none => .error "Canvas not ready"
  | some cv =>
      .ok ((((fromPixels cv).divScalar 255).resizeBilinear
        imageSize imageSize).expandDims0)

/-- Every value of the scaled single-channel image lies in [0,1] when the
raw pixels are 8-bit. -/
theorem divScalar_fromPixels_mem_unit (cv : Canvas)
    (hp : ∀ y x, cv.pixel y x ≤ 255) :
    ∀ v ∈ ((fromPixels cv).divScalar 255).data, 0 ≤ v ∧ v ≤ 1 := by
  intro v hv
  simp only [fromPixels, Tensor.divScalar, List.map_map, List.mem_map,
    List.mem_range, Function.comp] at hv
  obtain ⟨i, -, rfl⟩ := hv
  have h0 : (0 : ℚ) ≤ (cv.pixel (i / cv.width) (i % cv.width) : ℚ) := by
    positivity
  have h255 : (cv.pixel (i / cv.width) (i % cv.width) : ℚ) ≤ 255 := by
    exact_mod_cast hp (i / cv.width) (i % cv.width)
  constructor
  · positivity
  · rw [div_le_one (by norm_num)]
    exact h255

/-- A getD lookup with default 0 in a list of unit-interval values is a
unit-interval value. -/
theorem getD_mem_unit (l : List ℚ) (i : Nat)
    (hl : ∀ v ∈ l, 0 ≤ v ∧ v ≤ 1) :
    0 ≤ l.getD i 0 ∧ l.getD i 0 ≤ 1 := by
  rcases h : l[i]? with - | v
  · simp [List.getD, h]
  · have hv := hl v (List.getElem?_mem h)
    simpa [List.getD, h] using hv

/-- A linear blend a + (b - a) * t of unit-interval endpoints with weight
t in [0,1] stays in the unit interval. -/
theorem blend_mem_unit (a b t : ℚ) (ha0 : 0 ≤ a) (ha1 : a ≤ 1)
    (hb0 : 0 ≤ b) (hb1 : b ≤ 1) (ht0 : 0 ≤ t) (ht1 : t ≤ 1) :
    0 ≤ a + (b - a) * t ∧ a + (b - a) * t ≤ 1 := by
  constructor <;> nlinarith

/-- A two-dimensional blend of unit-interval corner values with
unit-interval weights stays in the unit interval. -/
theorem blend2_mem_unit (tl tr bl br fx fy : ℚ)
    (h1 : 0 ≤ tl) (h2 : tl ≤ 1) (h3 : 0 ≤ tr) (h4 : tr ≤ 1)
    (h5 : 0 ≤ bl) (h6 : bl ≤ 1) (h7 : 0 ≤ br) (h8 : br ≤ 1)
    (hx0 : 0 ≤ fx) (hx1 : fx ≤ 1) (hy0 : 0 ≤ fy) (hy1 : fy ≤ 1) :
    0 ≤ blend2 tl tr bl br fx fy ∧ blend2 tl tr bl br fx fy ≤ 1 := by
  have htop := blend_mem_unit tl tr fx h1 h2 h3 h4 hx0 hx1
  have hbot := blend_mem_unit bl br fx h5 h6 h7 h8 hx0 hx1
  simpa [blend2] using
    blend_mem_unit _ _ _ htop.1 htop.2 hbot.1 hbot.2 hy0 hy1

/-- Bilinear interpolation of unit-interval data stays in the unit
interval. -/
theorem bilinearAt_mem_unit (data : List ℚ) (h w c newH newW y x ch : Nat)
    (hl : ∀ v ∈ data, 0 ≤ v ∧ v ≤ 1) :
    0 ≤ bilinearAt data h w c newH newW y x ch ∧
      bilinearAt data h w c newH newW y x ch ≤ 1 := by
  have key : ∀ i : Nat, 0 ≤ data.getD i 0 ∧ data.getD i 0 ≤ 1 :=
    fun i => getD_mem_unit data i hl
  have hfy0 := Int.fract_nonneg (α := ℚ) ((y : ℚ) * ((h : ℚ) / newH))
  have hfy1 := le_of_lt (Int.fract_lt_one (α := ℚ)
    ((y : ℚ) * ((h : ℚ) / newH)))
  have hfx0 := Int.fract_nonneg (α := ℚ) ((x : ℚ) * ((w : ℚ) / newW))
  have hfx1 := le_of_lt (Int.fract_lt_one (α := ℚ)
    ((x : ℚ) * ((w : ℚ) / newW)))
  simp only [bilinearAt]
  exact blend2_mem_unit _ _ _ _ _ _
    (key _).1 (key _).2 (key _).1 (key _).2
    (key _).1 (key _).2 (key _).1 (key _).2
    hfx0 hfx1 hfy0 hfy1

set_option maxRecDepth 4000 in
/-- Claim C2: for every source canvas (any height and width, 8-bit
pixels), canvasToTensor succeeds with a tensor of shape exactly
[1, 28, 28, 1] all of whose values lie in [0, 1]. -/
theorem canvasToTensor_spec (cv : Canvas)
    (hp : ∀ y x, cv.pixel y x ≤ 255) :
    ∃ t, canvasToTensor (some cv) = .ok t ∧
      t.shape = [1, 28, 28, 1] ∧
      ∀ v ∈ t.data, 0 ≤ v ∧ v ≤ 1 := by
  refine ⟨_, rfl, ?_, ?_⟩
  · rfl
  · intro v hv
    have hunit := divScalar_fromPixels_mem_unit cv hp
    simp only [Tensor.expandDims0, Tensor.resizeBilinear, fromPixels,
      Tensor.divScalar, List.mem_map, List.mem_range] at hv
    obtain ⟨i, -, rfl⟩ := hv
    exact bilinearAt_mem_unit _ _ _ _ _ _ _ _ _
      (by simpa [fromPixels, Tensor.divScalar] using hunit)

/-- A concrete 2x3 canvas with mid-grey pixels. -/
def demoCanvas : Canvas := ⟨2, 3, fun _ _ => 128⟩

/-- Claim C2 witness: canvasToTensor_spec at the concrete 2x3 canvas. -/
theorem canvasToTensor_spec_witness :
    ∃ t, canvasToTensor (some demoCanvas) = .ok t ∧
      t.shape = [1, 28, 28, 1] ∧
      ∀ v ∈ t.data, 0 ≤ v ∧ v ≤ 1 :=
  canvasToTensor_spec demoCanvas (fun _ _ => by norm_num [demoCanvas])

/-- Math.max(...arr) for a nonempty array: the left fold of binary max
over the elements.  For [] the JS value is -Infinity, which no code path
with a compiled model produces; the model returns 0 there. -/
def listMax : List ℚ → ℚ
  | [] => 0
  | v :: vs => vs.foldl max v

/-- Array.prototype.indexOf, restricted to the found result: index of the
first occurrence.  A missing value yields the list length where JS yields
-1; both make the subsequent labels[maxIdx] lookup undefined, and every
claim only exercises the found case. -/
def jsIndexOf : List ℚ → ℚ → Nat
  | [], _ => 0
  | v :: vs, t => if v = t then 0 else jsIndexOf vs t + 1

/-- The accumulator of a max fold is a lower bound of the fold. -/
theorem foldl_max_le_self (l : List ℚ) (a : ℚ) : a ≤ l.foldl max a := by
  induction l generalizing a with
  | nil => simp
  | cons v vs ih => exact le_trans (le_max_left a v) (ih (max a v))

/-- Every list element is a lower bound of a max fold over the list. -/
theorem le_foldl_max (l : List ℚ) (a x : ℚ) (hx : x ∈ l) :
    x ≤ l.foldl max a := by
  induction l generalizing a with
  | nil => cases hx
  | cons v vs ih =>
      rcases List.mem_cons.1 hx with rfl | hx'
      · exact le_trans (le_max_right a x) (foldl_max_le_self vs (max a x))
      · exact ih (max a v) hx'

/-- A max fold returns its accumulator or one of the list elements. -/
theorem foldl_max_mem (l : List ℚ) (a : ℚ) :
    l.foldl max a = a ∨ l.foldl max a ∈ l := by
  induction l generalizing a with
  | nil => left; rfl
  | cons v vs ih =>
      rcases ih (max a v) with h | h
      · rcases max_choice a v with he | he
        · left; rw [List.foldl_cons, h, he]
        · right; rw [List.foldl_cons, h, he]; exact List.mem_cons_self v vs
      · right; exact List.mem_cons_of_mem v h

/-- The maximum of a nonempty list is one of its elements. -/
theorem listMax_mem (l : List ℚ) (h : l ≠ []) : listMax l ∈ l := by
  match l with
  | v :: vs =>
      rcases foldl_max_mem vs v with h' | h'
      · rw [listMax, h']; exact List.mem_cons_self v vs
      · exact List.mem_cons_of_mem v h'

/-- The maximum of a list bounds each of its elements. -/
theorem le_listMax (l : List ℚ) (x : ℚ) (hx : x ∈ l) : x ≤ listMax l := by
  match l with
  | v :: vs =>
      rcases List.mem_cons.1 hx with rfl | hx'
      · exact foldl_max_le_self vs x
      · exact le_foldl_max vs v x hx'

/-- indexOf characterization: if position i holds the target and no
earlier position does, indexOf returns i. -/
theorem jsIndexOf_eq_of (l : List ℚ) (t : ℚ) (i : Nat) (hi : i < l.length)
    (hat : l.getD i 0 = t) (hbefore : ∀ j, j < i → l.getD j 0 ≠ t) :
    jsIndexOf l t = i := by
  induction l generalizing i with
  | nil => simp at hi
  | cons v vs ih =>
      by_cases hv : v = t
      · have : i = 0 := by
          by_contra hne
          exact hbefore 0 (Nat.pos_of_ne_zero hne) (by simpa using hv)
        simp [jsIndexOf, hv, this]
      · match i with
        | 0 => simp [List.getD] at hat; exact absurd hat hv
        | i' + 1 =>
            have hrec := ih i' (by simpa using hi)
              (by simpa [List.getD] using hat)
              (fun j hj => by
                have := hbefore (j + 1) (Nat.succ_lt_succ hj)
                simpa [List.getD] using this)
            simp [jsIndexOf, hv, hrec]

/-- Result of a predict() call as observed through the status line. -/
inductive PredictResult where
  | modelNotReady
  | predicted
  | predictionFailed (cause : String)
deriving DecidableEq

/-- predict(): requires a live model; preprocesses the canvas (a missing
canvas throws and is caught); runs the model (the probability array it
returns is the probs parameter); takes maxIdx = arr.indexOf(Math.max(...
arr)) and stores {label: labels[maxIdx], probs} — labels[maxIdx] is
undefined (none) when maxIdx is outside the label list. -/
def predict (s : AppState) (canvas : Option Canvas) (probs : List ℚ) :
    AppState × PredictResult :=
  match s.model with
  | none =>
      ({ s with status := "Train (or load) a model first" }, .modelNotReady)
  | some _ =>
      match canvas with
      | none =>
          ({ s with status := "Prediction failed: Canvas not ready" },
            .predictionFailed "Canvas not ready")
      | some _ =>
          let maxIdx := jsIndexOf probs (listMax probs)
          ({ s with prediction := some ⟨s.labels[maxIdx]?, probs⟩ },
            .predicted)

/-- Claim C4: predict resolves the label at the first index achieving the
maximum of the probability vector: with a unique maximum at i it returns
the label at i, and under an exact tie it deterministically returns the
label at the smallest tied index i. -/
theorem predict_first_argmax (s : AppState) (m : ModelInst) (cv : Canvas)
    (probs : List ℚ) (i : Nat)
    (hm : s.model = some m)
    (hi : i < probs.length)
    (hmax : ∀ j, j < probs.length → probs.getD j 0 ≤ probs.getD i 0)
    (hfirst : ∀ j, j < i → probs.getD j 0 < probs.getD i 0) :
    (predict s (some cv) probs).1.prediction = some ⟨s.labels[i]?, probs⟩ ∧
    (predict s (some cv) probs).2 = .predicted := by
  have hargmax : jsIndexOf probs (listMax probs) = i := by
    have hmaxeq : listMax probs = probs.getD i 0 := by
      apply le_antisymm
      · have hmem : listMax probs ∈ probs :=
          listMax_mem probs (List.ne_nil_of_length_pos
            (Nat.lt_of_le_of_lt (Nat.zero_le i) hi))
        obtain ⟨j, hj, hjv⟩ := List.mem_iff_getElem.mp hmem
        calc listMax probs = probs.getD j 0 := by
              rw [List.getD_eq_getElem _ _ hj, hjv]
          _ ≤ probs.getD i 0 := hmax j hj
      · have : probs.getD i 0 ∈ probs := by
          rw [List.getD_eq_getElem _ _ hi]; exact List.getElem_mem hi
        exact le_listMax probs _ this
    rw [hmaxeq]
    exact jsIndexOf_eq_of probs _ i hi rfl
      (fun j hj => ne_of_lt (hfirst j hj))
  constructor
  · simp [predict, hm, hargmax]
  · simp [predict, hm]

/-- Claim C4 witness: predict_first_argmax at a concrete tied vector
[1/3, 1/2, 1/2] — the maximum 1/2 is attained at indices 1 and 2 and the
label at index 1 is returned. -/
theorem predict_first_argmax_witness :
    (predict { preTrainState with model := some ⟨buildModel 2⟩ }
        (some demoCanvas) [1/3, 1/2, 1/2]).1.prediction =
      some ⟨some "square", [1/3, 1/2, 1/2]⟩ ∧
    (predict { preTrainState with model := some ⟨buildModel 2⟩ }
        (some demoCanvas) [1/3, 1/2, 1/2]).2 = .predicted := by
  have h := predict_first_argmax
    { preTrainState with model := some ⟨buildModel 2⟩ } ⟨buildModel 2⟩
    demoCanvas [1/3, 1/2, 1/2] 1 rfl (by norm_num)
    (by intro j hj; simp only [List.length_cons, List.length_nil] at hj
        interval_cases j <;> norm_num [List.getD])
    (by intro j hj; interval_cases j; norm_num [List.getD])
  simpa [preTrainState] using h

/-- The label selector control: setCurrentLabel. -/
def selectLabel (s : AppState) (l : String) : AppState :=
  { s with currentLabel := l }

/-- tf.oneHot(idx, depth).expandDims(0): a [1, depth] tensor with a 1 at
position idx and 0 elsewhere. -/
def oneHotRow (idx depth : Nat) : Tensor :=
  ⟨[1, depth], (List.range depth).map (fun j => if j = idx then 1 else 0)⟩

/-- Result of an addExample() call as observed through the status line. -/
inductive AddResult where
  | added
  | unknownLabel
  | sourceNotReady
deriving DecidableEq

/-- addExample(): preprocess the canvas (a missing canvas throws and is
caught), look up the current label (labels.indexOf === -1 throws, caught:
the dataset is untouched), otherwise build the one-hot target, push the
(x, y) pair onto the dataset ref, bump the per-label count, and clear the
canvas (which resets the prediction to null). -/
def addExample (s : AppState) (canvas : Option Canvas) :
    AppState × AddResult :=
  match canvasToTensor canvas with
  | .error e =>
      ({ s with status := "Failed to add example: " ++ e }, .sourceNotReady)
  | .ok x =>
      if s.currentLabel ∈ s.labels then
        ({ s with
            xs := s.xs ++ [x]
          , ys := s.ys ++ [oneHotRow (s.labels.indexOf s.currentLabel)
              s.labels.length]
          , examples := fun l =>
              if l = s.currentLabel then s.examples l + 1 else s.examples l
          , status := "Added example for \"" ++ s.currentLabel ++ "\""
          , prediction := none }, .added)
      else
        ({ s with status := "Failed to add example: Label \"" ++
            s.currentLabel ++ "\" not found" }, .unknownLabel)

/-- Claim C6: adding an example under a label absent from the LabelSet
reports UnknownLabel and leaves the dataset untouched — no pair is
appended and no per-label count changes (labels are untouched too). -/
theorem addExample_unknownLabel (s : AppState) (cv : Canvas)
    (h : s.currentLabel ∉ s.labels) :
    (addExample s (some cv)).2 = .unknownLabel ∧
    (addExample s (some cv)).1.xs = s.xs ∧
    (addExample s (some cv)).1.ys = s.ys ∧
    (addExample s (some cv)).1.examples = s.examples ∧
    (addExample s (some cv)).1.labels = s.labels := by
  simp [addExample, canvasToTensor, h]

/-- Claim C6 witness: addExample_unknownLabel where the selected label is
no longer in the label list. -/
theorem addExample_unknownLabel_witness :
    (addExample { preTrainState with currentLabel := "star" }
        (some demoCanvas)).2 = .unknownLabel ∧
    (addExample { preTrainState with currentLabel := "star" }
        (some demoCanvas)).1.xs = preTrainState.xs ∧
    (addExample { preTrainState with currentLabel := "star" }
        (some demoCanvas)).1.ys = preTrainState.ys ∧
    (addExample { preTrainState with currentLabel := "star" }
        (some demoCanvas)).1.examples = preTrainState.examples ∧
    (addExample { preTrainState with currentLabel := "star" }
        (some demoCanvas)).1.labels = preTrainState.labels :=
  addExample_unknownLabel { preTrainState with currentLabel := "star" }
    demoCanvas (by decide)

/-- The entries of the one-hot target: 1 exactly at the hot index. -/
theorem oneHotRow_getD (idx depth j : Nat) (hj : j < depth) :
    (oneHotRow idx depth).data.getD j 0 = if j = idx then 1 else 0 := by
  rw [oneHotRow, List.getD_eq_getElem _ _ (by simpa using hj)]
  simp [hj]

/-- Claim C7: adding an example under a label present in the LabelSet
succeeds, bumps that label's count by exactly one, leaves every other
count unchanged, and appends exactly one (preprocessed tensor, one-hot
target) pair, the target being 1 at the label's current index in a
vector of length equal to the LabelSet size. -/
theorem addExample_known (s : AppState) (cv : Canvas)
    (h : s.currentLabel ∈ s.labels) :
    (addExample s (some cv)).2 = .added ∧
    (addExample s (some cv)).1.examples s.currentLabel =
      s.examples s.currentLabel + 1 ∧
    (∀ l, l ≠ s.currentLabel →
      (addExample s (some cv)).1.examples l = s.examples l) ∧
    (∃ x, canvasToTensor (some cv) = .ok x ∧
      (addExample s (some cv)).1.xs = s.xs ++ [x]) ∧
    (addExample s (some cv)).1.ys = s.ys ++
      [oneHotRow (s.labels.indexOf s.currentLabel) s.labels.length] ∧
    (oneHotRow (s.labels.indexOf s.currentLabel) s.labels.length).shape =
      [1, s.labels.length] ∧
    (oneHotRow (s.labels.indexOf s.currentLabel)
        s.labels.length).data.getD (s.labels.indexOf s.currentLabel) 0
      = 1 ∧
    (∀ j, j < s.labels.length → j ≠ s.labels.indexOf s.currentLabel →
      (oneHotRow (s.labels.indexOf s.currentLabel)
        s.labels.length).data.getD j 0 = 0) := by
  have hidx : s.labels.indexOf s.currentLabel < s.labels.length :=
    List.indexOf_lt_length.2 h
  refine ⟨?_, ?_, ?_, ?_, ?_, ?_, ?_, ?_⟩
  · simp [addExample, canvasToTensor, h]
  · simp [addExample, canvasToTensor, h]
  · intro l hl
    simp [addExample, canvasToTensor, h, hl]
  · exact ⟨_, rfl, by simp [addExample, canvasToTensor, h]⟩
  · simp [addExample, canvasToTensor, h]
  · rfl
  · rw [oneHotRow_getD _ _ _ hidx]; simp
  · intro j hj hne
    rw [oneHotRow_getD _ _ _ hj]; simp [hne]

/-- Claim C7 witness: addExample_known at the concrete pre-training state
(selected label "square", present at index 1 of two labels). -/
theorem addExample_known_witness :
    (addExample preTrainState (some demoCanvas)).2 = .added ∧
    (addExample preTrainState (some demoCanvas)).1.examples "square" =
      preTrainState.examples "square" + 1 ∧
    (∀ l, l ≠ "square" →
      (addExample preTrainState (some demoCanvas)).1.examples l =
        preTrainState.examples l) ∧
    (∃ x, canvasToTensor (some demoCanvas) = .ok x ∧
      (addExample preTrainState (some demoCanvas)).1.xs =
        preTrainState.xs ++ [x]) ∧
    (addExample preTrainState (some demoCanvas)).1.ys =
      preTrainState.ys ++ [oneHotRow 1 2] := by
  have h := addExample_known preTrainState demoCanvas (by decide)
  refine ⟨h.1, h.2.1, h.2.2.1, h.2.2.2.1, ?_⟩
  simpa [preTrainState] using h.2.2.2.2.1

/-- Result of a saveModel() call as observed through the status line. -/
inductive SaveResult where
  | saved
  | noModel
  | saveFailed (cause : String)
deriving DecidableEq

/-- saveModel(): nothing to save without a live model; otherwise write
the model to IndexedDB, then the JSON-encoded labels to localStorage.
saveErr and putErr are the outcomes of the two external writes (none =
success); a model.save failure leaves the store untouched, a
localStorage failure leaves only the model written — both are caught. -/
def saveModel (s : AppState) (store : Store) (saveErr putErr : Option String) :
    AppState × Store × SaveResult :=
  match s.model with
  | none => ({ s with status := "No trained model to save" }, store, .noModel)
  | some m =>
      match saveErr with
      | some e =>
          ({ s with status := "Save failed: " ++ e }, store, .saveFailed e)
      | none =>
          match putErr with
          | some e =>
              ({ s with status := "Save failed: " ++ e },
                { store with modelSlot := some m }, .saveFailed e)
          | none =>
              ({ s with status := "Model saved to IndexedDB" },
                ⟨some m, some s.labels⟩, .saved)

/-- Result of a loadModel() call as observed through the status line. -/
inductive LoadResult where
  | loaded
  | absent
deriving DecidableEq

/-- loadModel(): tf.loadLayersModel throws when the IndexedDB artifact is
missing; the catch reports "No saved model found" with the state
untouched.  On success the model is installed, and a parsed label array
that is nonempty replaces the label state, its first element becoming the
selected label; any other persisted value leaves the labels alone. -/
def loadModel (s : AppState) (store : Store) : AppState × LoadResult :=
  match store.modelSlot with
  | none => ({ s with status := "No saved model found" }, .absent)
  | some m =>
      match store.labelsSlot with
      | some (l0 :: ls) =>
          ({ s with
              model := some m
            , labels := (l0 :: ls)
            , currentLabel := l0
            , status := "Model loaded from IndexedDB" }, .loaded)
      | _ =>
          ({ s with
              model := some m
            , status := "Model loaded from IndexedDB" }, .loaded)

/-- A reachable state whose live model is wider than its label list:
train over three labels, then remove one.  Here given directly: model
built for 3 classes, labels back to the two defaults. -/
def mismatchState : AppState :=
  { preTrainState with model := some ⟨buildModel 3⟩ }

/-- Claim C3 counterexample: a state with a live model (built for 3
classes) and a non-empty label set of 2 labels; save followed by load
restores the labels but the restored model's output width is 3, not the
saved label set's length 2, so the claimed equality fails. -/
theorem saveLoad_width_mismatch :
    mismatchState.model = some ⟨buildModel 3⟩ ∧
    mismatchState.labels = ["circle", "square"] ∧
    (loadModel (saveModel mismatchState ⟨none, none⟩ none none).1
        (saveModel mismatchState ⟨none, none⟩ none none).2.1).1.model =
      some ⟨buildModel 3⟩ ∧
    (loadModel (saveModel mismatchState ⟨none, none⟩ none none).1
        (saveModel mismatchState ⟨none, none⟩ none none).2.1).1.labels =
      ["circle", "square"] ∧
    (buildModel 3).outputWidth = 3 ∧
    (buildModel 3).outputWidth ≠
      (loadModel (saveModel mismatchState ⟨none, none⟩ none none).1
        (saveModel mismatchState ⟨none, none⟩ none none).2.1).1.labels.length := by
  refine ⟨rfl, rfl, rfl, rfl, rfl, ?_⟩
  decide

/-- Claim C3 (amended): for every state with a live model and a non-empty
label set, save followed by load restores exactly the saved Model and a
label set equal to the saved one element-for-element in order; hence the
restored Model's output width equals the restored label set's length
precisely when the saved model's width already equalled the label set's
length (which the persistence code does not enforce). -/
theorem saveLoad_roundTrip (s : AppState) (store : Store) (m : ModelInst)
    (hm : s.model = some m) (hl : s.labels ≠ []) :
    (saveModel s store none none).2.2 = .saved ∧
    (loadModel (saveModel s store none none).1
      (saveModel s store none none).2.1).2 = .loaded ∧
    (loadModel (saveModel s store none none).1
      (saveModel s store none none).2.1).1.model = some m ∧
    (loadModel (saveModel s store none none).1
      (saveModel s store none none).2.1).1.labels = s.labels ∧
    ((loadModel (saveModel s store none none).1
        (saveModel s store none none).2.1).1.model.map
          (fun mr => mr.arch.outputWidth) = some s.labels.length ↔
      m.arch.outputWidth = s.labels.length) := by
  match hcons : s.labels with
  | [] => exact absurd hcons hl
  | l0 :: ls =>
      refine ⟨?_, ?_, ?_, ?_, ?_⟩ <;>
        simp [saveModel, loadModel, hm, hcons]

/-- Claim C3 amended witness: saveLoad_roundTrip at a consistent concrete
state (model built for 2 classes, 2 labels). -/
theorem saveLoad_roundTrip_witness :
    (saveModel { preTrainState with model := some ⟨buildModel 2⟩ }
        ⟨none, none⟩ none none).2.2 = .saved ∧
    (loadModel (saveModel { preTrainState with model := some ⟨buildModel 2⟩ }
        ⟨none, none⟩ none none).1
      (saveModel { preTrainState with model := some ⟨buildModel 2⟩ }
        ⟨none, none⟩ none none).2.1).2 = .loaded ∧
    (loadModel (saveModel { preTrainState with model := some ⟨buildModel 2⟩ }
        ⟨none, none⟩ none none).1
      (saveModel { preTrainState with model := some ⟨buildModel 2⟩ }
        ⟨none, none⟩ none none).2.1).1.model = some ⟨buildModel 2⟩ ∧
    (loadModel (saveModel { preTrainState with model := some ⟨buildModel 2⟩ }
        ⟨none, none⟩ none none).1
      (saveModel { preTrainState with model := some ⟨buildModel 2⟩ }
        ⟨none, none⟩ none none).2.1).1.labels =
      { preTrainState with model := some ⟨buildModel 2⟩ }.labels ∧
    ((loadModel (saveModel { preTrainState with model := some ⟨buildModel 2⟩ }
        ⟨none, none⟩ none none).1
      (saveModel { preTrainState with model := some ⟨buildModel 2⟩ }
        ⟨none, none⟩ none none).2.1).1.model.map
          (fun mr => mr.arch.outputWidth) =
        some { preTrainState with model := some ⟨buildModel 2⟩ }.labels.length ↔
      (⟨buildModel 2⟩ : ModelInst).arch.outputWidth =
        { preTrainState with model := some ⟨buildModel 2⟩ }.labels.length) :=
  saveLoad_roundTrip { preTrainState with model := some ⟨buildModel 2⟩ }
    ⟨none, none⟩ ⟨buildModel 2⟩ rfl (by decide)

/-- addLabel(): prompt() may be cancelled (none); a truthy (nonempty)
label not already present is appended and selected, anything else is
ignored. -/
def addLabel (s : AppState) (newLabel : Option String) : AppState :=
  match newLabel with
  | none => s
  | some l =>
      if l ≠ "" ∧ l ∉ s.labels then
        { s with labels := s.labels ++ [l], currentLabel := l }
      else s

/-- removeLabel(): refuses to drop below one label; otherwise filters the
current label out and selects the first remaining label (the JS
updatedLabels[0]; headD "" stands in for the undefined value which only a
duplicated label list could produce). -/
def removeLabel (s : AppState) : AppState :=
  if s.labels.length ≤ 1 then s
  else
    { s with
        labels := s.labels.filter (fun l => l ≠ s.currentLabel)
      , currentLabel :=
          (s.labels.filter (fun l => l ≠ s.currentLabel)).headD "" }

/-- The LabelSet invariant: nonempty, duplicate-free, and every label's
one-hot index (labels.indexOf, as addExample computes it) equals its
position. -/
def LabelSetInv (ls : List String) : Prop :=
  ls ≠ [] ∧ ls.Nodup ∧
    ∀ i : Nat, ∀ hi : i < ls.length, ls.indexOf ls[i] = i

/-- Nonemptiness and dedup imply the full invariant: in a duplicate-free
list the first occurrence of each entry is its position. -/
theorem labelSetInv_of (ls : List String) (h1 : ls ≠ []) (h2 : ls.Nodup) :
    LabelSetInv ls :=
  ⟨h1, h2, fun i hi => List.indexOf_getElem h2 i hi⟩

/-- Filtering one value out of a duplicate-free list of length at least
two cannot empty it. -/
theorem filter_ne_nil_of_two (ls : List String) (cur : String)
    (hn : ls.Nodup) (hlen : 2 ≤ ls.length) :
    ls.filter (fun l => l ≠ cur) ≠ [] := by
  match ls, hlen with
  | a :: b :: t, _ =>
      intro hemp
      rw [List.filter_eq_nil_iff] at hemp
      have ha := hemp a (by simp)
      have hb := hemp b (by simp)
      simp at ha hb
      have hab : a ≠ b := by
        have h' := (List.nodup_cons.1 hn).1
        exact fun he => h' (he ▸ List.mem_cons_self b t)
      exact hab (ha.trans hb.symm)

/-- Claim C8: the LabelSet invariant (no duplicates, never empty, one-hot
index = position) is preserved by addLabel, by removeLabel, and by
loadModel whenever the persisted label list is duplicate-free (as every
list saveModel writes from an invariant state is); removing the last
remaining label is rejected outright. -/
theorem labelSet_invariant_preserved (s : AppState)
    (newLabel : Option String) (store : Store)
    (hinv : LabelSetInv s.labels)
    (hstore : ∀ ls, store.labelsSlot = some ls → ls.Nodup) :
    LabelSetInv (addLabel s newLabel).labels ∧
    LabelSetInv (removeLabel s).labels ∧
    LabelSetInv (loadModel s store).1.labels ∧
    (s.labels.length = 1 → (removeLabel s).labels = s.labels) := by
  refine ⟨?_, ?_, ?_, ?_⟩
  · match newLabel with
    | none => exact hinv
    | some l =>
        by_cases hc : l ≠ "" ∧ l ∉ s.labels
        · have hnd : (s.labels ++ [l]).Nodup :=
            List.nodup_append.2 ⟨hinv.2.1, List.nodup_singleton l, by
              intro x hx hx'
              rw [List.mem_singleton] at hx'
              exact hc.2 (hx' ▸ hx)⟩
          simpa [addLabel, hc] using labelSetInv_of _ (by simp) hnd
        · simpa [addLabel, hc] using hinv
  · by_cases hlen : s.labels.length ≤ 1
    · simpa [removeLabel, hlen] using hinv
    · have h2 : 2 ≤ s.labels.length := by omega
      have hne := filter_ne_nil_of_two s.labels s.currentLabel hinv.2.1 h2
      have hnd := hinv.2.1.filter
        (fun l => decide (l ≠ s.currentLabel))
      simpa [removeLabel, hlen] using labelSetInv_of _ hne hnd
  · rcases hms : store.modelSlot with - | m
    · simpa [loadModel, hms] using hinv
    · rcases hss : store.labelsSlot with - | ls
      · simpa [loadModel, hms, hss] using hinv
      · match ls, hss with
        | [], hss => simpa [loadModel, hms, hss] using hinv
        | l0 :: ls', hss =>
            have hnd := hstore _ hss
            simpa [loadModel, hms, hss] using
              labelSetInv_of _ (List.cons_ne_nil l0 ls') hnd
  · intro h1
    simp [removeLabel, h1]

/-- Claim C8 witness: labelSet_invariant_preserved at the concrete
pre-training state, adding "star", with a persisted duplicate-free label
pair in the store. -/
theorem labelSet_invariant_preserved_witness :
    LabelSetInv (addLabel preTrainState (some "star")).labels ∧
    LabelSetInv (removeLabel preTrainState).labels ∧
    LabelSetInv (loadModel preTrainState
      ⟨some ⟨buildModel 2⟩, some ["a", "b"]⟩).1.labels ∧
    (preTrainState.labels.length = 1 →
      (removeLabel preTrainState).labels = preTrainState.labels) :=
  labelSet_invariant_preserved preTrainState (some "star")
    ⟨some ⟨buildModel 2⟩, some ["a", "b"]⟩
    ⟨by decide, by decide, by decide⟩
    (fun ls h => by
      have hls : ["a", "b"] = ls := by simpa using h
      rw [← hls]; decide)

/-- The initial component state, as the useState hooks create it. -/
def initState : AppState :=
  { labels := ["circle", "square"]
  , currentLabel := "circle"
  , examples := fun _ => 0
  , xs := []
  , ys := []
  , model := none
  , prediction := none
  , status := "Ready" }

/-- A reachable stale-model state: from a fresh session, add one example
for "circle", select "square", add one example for it, train with the
fit succeeding (live model of output width 2), then remove the selected
label — the labels shrink to ["circle"] while the model keeps width 2. -/
def staleState : AppState :=
  removeLabel
    (train
      (addExample
        (selectLabel (addExample initState (some demoCanvas)).1 "square")
        (some demoCanvas)).1
      none none).1

/-- Claim C10: in the reachable state staleState the live model's output
width (2) exceeds the LabelSet size (1); feeding predict a probability
vector of that width whose maximum sits at index 1 makes the unchecked
labels[maxIdx] lookup fall outside the label list, so the stored
Prediction carries no label of the LabelSet (label = none). -/
theorem predict_stale_label_missing :
    staleState.model = some ⟨buildModel 2⟩ ∧
    (buildModel 2).outputWidth = 2 ∧
    staleState.labels = ["circle"] ∧
    ([0, 1] : List ℚ).length = (buildModel 2).outputWidth ∧
    jsIndexOf [0, 1] (listMax [0, 1]) = 1 ∧
    (predict staleState (some demoCanvas) [0, 1]).1.prediction =
      some ⟨none, [0, 1]⟩ ∧
    (∀ l ∈ staleState.labels, (some l : Option String) ≠ none) := by
  refine ⟨rfl, rfl, rfl, rfl, rfl, rfl, ?_⟩
  decide
